import Mathlib

/-!
Verification of the GraphQL request/response pipeline vendored in
`vendor/github.com/hasura/go-graphql-client/option.go`.

The Go code is shallowly embedded: the `Client` value, error model
(`Error`, `Errors`, `newError`, `NetworkError`), the request pipeline
(`Client.request`), response processing (`Client.processResponse`) and
the immutable derivations (`WithRequestModifier`, `WithDebug`) are
translated directly.  External library functions that are not part of
this repository (`encoding/json` encoding/decoding, `compress/gzip`,
`net/http` request construction, the transport's `Do`, and
`jsonutil.UnmarshalGraphQL`) are passed in as explicit function
parameters collected in a `Codec` structure; the transport lives in the
client, as in the source.  Byte slices are modelled as `String`.
-/

set_option autoImplicit false

namespace GraphqlClient

/-- HTTP headers, as an ordered key/value list (net/http `Header`,
restricted to single-valued use as in this pipeline). -/
abbrev Header := List (String × String)

/-- Go `Header.Get`: first value for the key, or `""` (the pipeline only
reads headers it wrote itself or compares literal values, so canonical
case folding is not modelled). -/
def headerGet (h : Header) (k : String) : String :=
  match h with
  | [] => ""
  | (k0, v) :: rest => if k0 = k then v else headerGet rest k

/-- Go `Header.Add`. -/
def headerAdd (h : Header) (k v : String) : Header :=
  h ++ [(k, v)]

/-- Abridged `net/http.StatusText` table (codes relevant here; unknown
codes give `""`, as in Go). -/
def statusText (c : Nat) : String :=
  if c = 200 then "OK"
  else if c = 201 then "Created"
  else if c = 400 then "Bad Request"
  else if c = 401 then "Unauthorized"
  else if c = 403 then "Forbidden"
  else if c = 404 then "Not Found"
  else if c = 500 then "Internal Server Error"
  else if c = 502 then "Bad Gateway"
  else ""

/-- Go `error` values that flow through the pipeline.  `network` is the
`NetworkError` struct of the source; `wrapped` is `fmt.Errorf("...: %w", err)`;
`simple` stands for any other opaque error value. -/
inductive GoErr : Type where
  | network (statusCode : Nat) (body : String) : GoErr
  | simple (msg : String) : GoErr
  | wrapped (pre : String) (inner : GoErr) : GoErr
  deriving Repr, DecidableEq

/-- The `Error()` string of a Go error.  `NetworkError.Error` is
`fmt.Sprintf("%d %s", statusCode, http.StatusText(statusCode))`. -/
def GoErr.message : GoErr → String
  | .network sc _ => toString sc ++ " " ++ statusText sc
  | .simple m => m
  | .wrapped p inner => p ++ ": " ++ inner.message

/-- The `NetworkError` constructor (the struct literal of the source). -/
def NetworkError (statusCode : Nat) (body : String) : GoErr :=
  GoErr.network statusCode body

/-- Accessor `NetworkError.StatusCode`. -/
def GoErr.StatusCode : GoErr → Option Nat
  | .network sc _ => some sc
  | _ => none

/-- Accessor `NetworkError.Body`. -/
def GoErr.Body : GoErr → Option String
  | .network _ b => some b
  | _ => none

/-- Dynamic JSON-ish values stored in an error's `map[string]any`
extensions: strings, header maps, nested objects, and JSON null. -/
inductive JValue : Type where
  | vStr (s : String) : JValue
  | vHeaders (h : Header) : JValue
  | vObj (fields : List (String × JValue)) : JValue
  | vNull : JValue

/-- Go map lookup (`m[k]`, with `ok` as `isSome`). -/
def mapGet {β : Type} (m : List (String × β)) (k : String) : Option β :=
  match m with
  | [] => none
  | (k0, v) :: rest => if k0 = k then some v else mapGet rest k

/-- Go map assignment (`m[k] = v`): overwrite the existing binding or
append a new one. -/
def mapSet {β : Type} (m : List (String × β)) (k : String) (v : β) : List (String × β) :=
  match m with
  | [] => [(k, v)]
  | (k0, v0) :: rest => if k0 = k then (k, v) :: rest else (k0, v0) :: mapSet rest k v

/-- A source location inside an error (`line`/`column`). -/
structure Location where
  line : Int
  column : Int
  deriving Repr, DecidableEq

/-- Embeds `graphql.Error`: one entry of the `errors` array.  `err` is the
unexported wrapped Go error (`nil` for errors decoded from a response
envelope, set by `newError` for pipeline-constructed errors). -/
structure Error where
  Message : String
  Extensions : Option (List (String × JValue))
  Locations : List Location
  Path : List JValue
  err : Option GoErr

/-- Embeds `graphql.Errors`. -/
abbrev Errors := List Error

/-- The error-classification code constants of the source. -/
def ErrRequestError : String := "request_error"

def ErrJsonEncode : String := "json_encode_error"

def ErrJsonDecode : String := "json_decode_error"

def ErrGraphQLEncode : String := "graphql_encode_error"

def ErrGraphQLDecode : String := "graphql_decode_error"

def ErrGraphQLExtensionsDecode : String := "graphql_extensions_decode_error"

/-- All classification codes declared by the source. -/
def classificationCodes : List String :=
  [ErrRequestError, ErrJsonEncode, ErrJsonDecode, ErrGraphQLEncode,
   ErrGraphQLDecode, ErrGraphQLExtensionsDecode]

/-- Embeds `newError`: message is the wrapped error's `Error()` text, the
extensions map holds the classification under `"code"`. -/
def newError (code : String) (e : GoErr) : Error :=
  { Message := e.message
    Extensions := some [("code", JValue.vStr code)]
    Locations := []
    Path := []
    err := some e }

/-- Embeds `Error.getInternalExtension`: the `"internal"` sub-map of the
extensions, or an empty map.  (Go type-asserts a present value to
`map[string]any` and would panic on a non-map; the pipeline only ever
stores objects there, so that case is modelled as the empty map.) -/
def Error.getInternalExtension (e : Error) : List (String × JValue) :=
  match e.Extensions with
  | none => []
  | some ext =>
    match mapGet ext "internal" with
    | some (JValue.vObj m) => m
    | some _ => []
    | none => []

/-- An outgoing `http.Request` (URL, headers, body bytes). -/
structure HttpRequest where
  url : String
  headers : Header
  body : String

/-- An incoming `http.Response` (status, headers, body bytes). -/
structure HttpResponse where
  statusCode : Nat
  headers : Header
  body : String

/-- Embeds `Error.withRequest`: capture the outgoing request headers and body
under `extensions["internal"]["request"]`.  `body` is what
`io.ReadAll` yields from the (rewound) request-body reader; a nil
extensions map is replaced by a fresh one, as in the source. -/
def Error.withRequest (e : Error) (req : HttpRequest) (body : String) : Error :=
  let internal := mapSet e.getInternalExtension "request"
    (JValue.vObj [("headers", JValue.vHeaders req.headers), ("body", JValue.vStr body)])
  let ext := e.Extensions.getD []
  { e with Extensions := some (mapSet ext "internal" (JValue.vObj internal)) }

/-- Embeds `Error.withResponse`: capture the response headers (and, when a
response reader is at hand, its remaining bytes) under
`extensions["internal"]["response"]`.  (The source writes into
`e.Extensions` without a nil check here; along every pipeline path the
map is non-nil by then, and a nil map is modelled as empty.) -/
def Error.withResponse (e : Error) (res : HttpResponse) (bodyReader : Option String) : Error :=
  let internal := e.getInternalExtension
  let response : List (String × JValue) :=
    match bodyReader with
    | none => [("headers", JValue.vHeaders res.headers)]
    | some b => mapSet [("headers", JValue.vHeaders res.headers)] "body" (JValue.vStr b)
  let internal := mapSet internal "response" (JValue.vObj response)
  let ext := e.Extensions.getD []
  { e with Extensions := some (mapSet ext "internal" (JValue.vObj internal)) }

/-- The guard of the debug-capture branch: Go tests
`Extensions == nil || Extensions["request"] == nil` on the first
envelope error (a decoded JSON `null` is a nil `any`). -/
def Error.requestCaptureMissing (e : Error) : Bool :=
  match e.Extensions with
  | none => true
  | some ext =>
    match mapGet ext "request" with
    | none => true
    | some JValue.vNull => true
    | some _ => false

/-- The decoded response envelope: the anonymous `out` struct of
`Client.request` (`Data`/`Extensions` are raw JSON spans, `nil` when
absent). -/
structure Envelope where
  Data : Option String
  Extensions : Option String
  Errors : List Error

/-- Embeds `GraphQLRequestPayload`: the serialized request body fields. -/
structure GraphQLRequestPayload where
  Query : String
  Variables : List (String × JValue)
  OperationName : String

/-- The external (standard-library / jsonutil) functions the pipeline
calls; they are not part of this repository, so they are parameters of
the embedding:
- `encodePayload` — `json.NewEncoder(&buf).Encode(in)`;
- `newRequest` — `http.NewRequestWithContext(ctx, POST, url, body)`;
- `gunzip` — creating a `gzip.Reader` and reading it through (creation
  eagerly validates the gzip header and fails on a malformed stream);
- `gzipRemainder` — the bytes of the raw response stream left unread
  after the gzip reader buffered its input (`gzip.NewReader` wraps the
  body in a buffered reader, so a later direct `io.ReadAll(resp.Body)`
  sees only this remainder);
- `decodeEnvelope` — `json.Decoder.Decode` into the `out` struct;
- `unmarshalData` — `jsonutil.UnmarshalGraphQL(data, v)` writing the
  caller's typed output `v : α`;
- `unmarshalExt` — `json.Unmarshal(rawExtensions, target)` for the
  bound extensions target (`none` = success). -/
structure Codec (α : Type) where
  encodePayload : GraphQLRequestPayload → Except GoErr String
  newRequest : String → String → Except GoErr HttpRequest
  gunzip : String → Except GoErr String
  gzipRemainder : String → String
  decodeEnvelope : String → Except GoErr Envelope
  unmarshalData : String → Except GoErr α
  unmarshalExt : String → Option GoErr

/-- The function type tweaking the outgoing HTTP request
(`RequestModifier`); Go function values are nilable, hence `Option`
at the use sites. -/
abbrev RequestModifier := HttpRequest → HttpRequest

/-- Embeds `graphql.Client`: URL, transport, optional request modifier, debug
flag.  The transport (`httpClient Doer`) is its `Do` function. -/
structure Client where
  url : String
  httpClient : HttpRequest → Except GoErr HttpResponse
  requestModifier : Option RequestModifier
  debug : Bool

/-- Embeds `NewClient` (the nil-transport default to `http.DefaultClient` is
resolved by the caller of the embedding). -/
def NewClient (url : String) (httpClient : HttpRequest → Except GoErr HttpResponse) : Client :=
  { url := url, httpClient := httpClient, requestModifier := none, debug := false }

/-- Embeds `Client.WithRequestModifier`: a fresh client value; the composite
literal omits `debug`, so the copy's debug flag is the zero value
`false`. -/
def Client.WithRequestModifier (c : Client) (f : Option RequestModifier) : Client :=
  { url := c.url
    httpClient := c.httpClient
    requestModifier := f
    debug := false }

/-- Embeds `Client.WithDebug`: a fresh client value with the given debug flag,
preserving the request modifier. -/
def Client.WithDebug (c : Client) (debug : Bool) : Client :=
  { url := c.url
    httpClient := c.httpClient
    requestModifier := c.requestModifier
    debug := debug }

/-- The request as dispatched: `Content-Type: application/json` is
added, then the request modifier (when set) is applied. -/
def Client.prepareRequest (c : Client) (req0 : HttpRequest) : HttpRequest :=
  let req1 : HttpRequest :=
    { req0 with headers := headerAdd req0.headers "Content-Type" "application/json" }
  match c.requestModifier with
  | some f => f req1
  | none => req1

/-- The nil-or-nonempty normalization applied to the raw `data` and
`extensions` spans (`out.Data != nil && len(*out.Data) > 0`). -/
def normSpan : Option String → Option String
  | some d => if 0 < d.length then some d else none
  | none => none

/-- The five return values of `Client.request`.  `respBuf` is the
remaining unread content of the debug response reader handed to the
caller (`nil` when debug capture did not run). -/
structure RequestResult where
  rawData : Option String
  extensions : Option String
  resp : Option HttpResponse
  respBuf : Option String
  errs : Errors

/-- The part of `Client.request` that follows a successful
`httpClient.Do`: gzip handling, the status check, envelope decoding and
debug capture.  `request` is the dispatched request, `reqBody` its body
(the rewound request reader reads back exactly these bytes).  The stage
after gzip-reader setup is split off as `handleDecoded`; `handleResponse`
performs the gzip handling and delegates.

Faithful stream details: the gzip reader is created (and its header
validated) before the status check; both the non-2xx body capture and
the debug body capture read `resp.Body` directly — after a gzip reader
was created they see only `gzipRemainder`, and in debug mode the JSON
decoder is pointed at that raw capture rather than at the gzip
reader. -/
def Client.handleDecoded {α : Type} (c : Client) (cd : Codec α)
    (request : HttpRequest) (reqBody : String) (resp : HttpResponse)
    (decoded rawRemaining : String) : RequestResult :=
  if resp.statusCode ≠ 200 then
    let e := newError ErrRequestError
      (GoErr.network resp.statusCode rawRemaining)
    let e := if c.debug then e.withRequest request reqBody else e
    ⟨none, none, none, none, [e]⟩
  else
    let decodeInput := if c.debug then rawRemaining else decoded
    match cd.decodeEnvelope decodeInput with
    | .error e =>
      let we := newError ErrJsonDecode e
      let we :=
        if c.debug then
          (we.withRequest request reqBody).withResponse resp (some decodeInput)
        else we
      ⟨none, none, none, none, [we]⟩
    | .ok out =>
      let rawData : Option String := normSpan out.Data
      let extensions : Option String := normSpan out.Extensions
      let respReader : Option String := if c.debug then some decodeInput else none
      match out.Errors with
      | [] => ⟨rawData, extensions, some resp, respReader, []⟩
      | e0 :: rest =>
        if c.debug && e0.requestCaptureMissing then
          let e0e := (e0.withRequest request reqBody).withResponse resp respReader
          ⟨rawData, extensions, some resp, some "", e0e :: rest⟩
        else
          ⟨rawData, extensions, some resp, respReader, e0 :: rest⟩

def Client.handleResponse {α : Type} (c : Client) (cd : Codec α)
    (request : HttpRequest) (reqBody : String) (resp : HttpResponse) : RequestResult :=
  let gzRes : Except GoErr (String × String) :=
    if headerGet resp.headers "Content-Encoding" = "gzip" then
      match cd.gunzip resp.body with
      | .error e => .error e
      | .ok d => .ok (d, cd.gzipRemainder resp.body)
    else .ok (resp.body, resp.body)
  match gzRes with
  | .error e =>
    ⟨none, none, none, none,
      [newError ErrJsonDecode (GoErr.wrapped "problem trying to create gzip reader" e)]⟩
  | .ok (decoded, rawRemaining) =>
    c.handleDecoded cd request reqBody resp decoded rawRemaining

/-- Embeds `Client.request`: serialize the payload, build and dispatch the
HTTP request, then hand the response to `handleResponse`.  (On a
request-construction failure in debug mode the source calls
`withRequest` on a nil `*http.Request`, a nil dereference, so no
enrichment is modelled on that path.) -/
def Client.request {α : Type} (c : Client) (cd : Codec α)
    (query : String) (vars : List (String × JValue)) (operationName : String) :
    RequestResult :=
  let payload : GraphQLRequestPayload :=
    { Query := query, Variables := vars, OperationName := operationName }
  match cd.encodePayload payload with
  | .error e => ⟨none, none, none, none, [newError ErrGraphQLEncode e]⟩
  | .ok reqBody =>
    match cd.newRequest c.url reqBody with
    | .error e0 =>
      ⟨none, none, none, none,
        [newError ErrRequestError (GoErr.wrapped "problem constructing request" e0)]⟩
    | .ok req0 =>
      let request := c.prepareRequest req0
      match c.httpClient request with
      | .error e0 =>
        let e := newError ErrRequestError e0
        let e := if c.debug then e.withRequest request reqBody else e
        ⟨none, none, none, none, [e]⟩
      | .ok resp => c.handleResponse cd request reqBody resp

/-- Embeds `Client.processResponse`: unmarshal `data` into the typed output,
then the raw extensions into the bound target, appending a classified
error for each failure; the typed output is returned in place of Go's
in-place write through `v`. -/
def Client.processResponse {α : Type} (c : Client) (cd : Codec α)
    (extBound : Bool) (data : Option String) (rawExtensions : Option String)
    (resp : Option HttpResponse) (respBuf : Option String) (errs : Errors) :
    Option α × Errors :=
  let step1 : Option α × Errors :=
    match data with
    | some d =>
      if 0 < d.length then
        match cd.unmarshalData d with
        | .ok a => (some a, errs)
        | .error g =>
          let we := newError ErrGraphQLDecode g
          let we :=
            if c.debug then
              match resp with
              | some r => we.withResponse r respBuf
              | none => we
            else we
          (none, errs ++ [we])
      else (none, errs)
    | none => (none, errs)
  let errs1 :=
    match rawExtensions with
    | some x =>
      if 0 < x.length ∧ extBound = true then
        match cd.unmarshalExt x with
        | none => step1.2
        | some g => step1.2 ++ [newError ErrGraphQLExtensionsDecode g]
      else step1.2
    | none => step1.2
  (step1.1, errs1)

/-- Embeds `Client.do` (named `doOp` here since `do` is a Lean keyword): build
the query, dispatch, process.  `build` stands for the result of
`buildQueryAndOptions` — `constructQuery`/`constructMutation` are not
vendored in this repository; the parts of the option output the
pipeline consumes are the query string, the operation name and whether
an extensions target was bound.  A build failure yields
`Errors{newError(ErrGraphQLEncode, err)}`. -/
def Client.doOp {α : Type} (c : Client) (cd : Codec α)
    (build : Except GoErr (String × String × Bool))
    (vars : List (String × JValue)) : Option α × Errors :=
  match build with
  | .error e => (none, [newError ErrGraphQLEncode e])
  | .ok (query, operationName, extBound) =>
    let r := c.request cd query vars operationName
    c.processResponse cd extBound r.rawData r.extensions r.resp r.respBuf r.errs

/-- Embeds `Client.Query`: `do` with a query-construction result. -/
def Client.Query {α : Type} (c : Client) (cd : Codec α)
    (build : Except GoErr (String × String × Bool))
    (vars : List (String × JValue)) : Option α × Errors :=
  c.doOp cd build vars

/-- Embeds `Client.Mutate`: `do` with a mutation-construction result. -/
def Client.Mutate {α : Type} (c : Client) (cd : Codec α)
    (build : Except GoErr (String × String × Bool))
    (vars : List (String × JValue)) : Option α × Errors :=
  c.doOp cd build vars

/-- The classification property of pipeline-constructed errors: whenever
an error wraps an underlying Go error, its message is that error's
message and its extensions carry a declared classification code under
`"code"`.  (Envelope-decoded errors have `err = none` and satisfy this
vacuously.) -/
def pipelineClassified (e : Error) : Prop :=
  ∀ g : GoErr, e.err = some g →
    e.Message = g.message ∧
    ∃ cs, cs ∈ classificationCodes ∧
      mapGet (e.Extensions.getD []) "code" = some (JValue.vStr cs)

/-- Predicate for "no captured bytes are attached": the error's extensions carry no
`"internal"` entry (the only place `withRequest`/`withResponse` store
captured request/response bytes). -/
def noInternal (e : Error) : Prop :=
  mapGet (e.Extensions.getD []) "internal" = none

/-! ### Concrete sample values

A small concrete instantiation of the abstract codec/transport
parameters, mirroring the `addArtifact` mutation issued by `main.go`;
used to evaluate the pipeline on explicit inputs. -/

/-- The inner object of the action's mutation result. -/
structure AddArtifactResult where
  id : String
  deriving Repr, DecidableEq

/-- The typed output of the `addArtifact` mutation in `main.go`. -/
structure MutationPayload where
  AddArtifact : AddArtifactResult
  deriving Repr, DecidableEq

def sampleQuery : String :=
  "mutation ($input: AddArtifactInput!)\x7baddArtifact(input: $input)\x7bid\x7d\x7d"

/-- Serialized `{query, variables, operationName}` request body bytes. -/
def sampleReqBody : String :=
  "\x7b\"query\":\"mutation ...\",\"variables\":\x7b\"input\":\x7b\x7d\x7d\x7d"

/-- The raw `data` span of the example envelope. -/
def sampleData : String := "\x7b\"addArtifact\": \x7b\"id\": \"abc123\"\x7d\x7d"

/-- A `data` span the typed unmarshaler rejects. -/
def badData : String := "\x7b\"addArtifact\": 1\x7d"

/-- An `extensions` span the bound extensions target rejects. -/
def badExt : String := "\x7b\"tracing\": 1\x7d"

/-- The envelope `{"data": {"addArtifact": {"id": "abc123"}}}`. -/
def sampleEnvelope : String := "\x7b\"data\": " ++ sampleData ++ "\x7d"

/-- An envelope carrying both `data` and one error. -/
def envBoth : String :=
  "\x7b\"data\": " ++ sampleData ++ ", \"errors\": [\x7b\"message\": \"not found\"\x7d]\x7d"

/-- An envelope carrying two errors and no `data`. -/
def envTwoErrors : String :=
  "\x7b\"errors\": [\x7b\"message\": \"not found\"\x7d, \x7b\"message\": \"second failure\"\x7d]\x7d"

/-- A compressed body that decompresses to `sampleEnvelope`. -/
def sampleGzip : String := "GZDATA"

/-- The first server-sent envelope error of the samples. -/
def notFoundError : Error :=
  { Message := "not found"
    Extensions := some [("code", JValue.vStr "NOT_FOUND")]
    Locations := []
    Path := []
    err := none }

/-- The second server-sent envelope error of the samples. -/
def secondError : Error :=
  { Message := "second failure"
    Extensions := none
    Locations := []
    Path := []
    err := none }

/-- The unmarshal failure produced by `jsonutil` on `badData`. -/
def decodeFail : GoErr := GoErr.simple "struct field for addArtifact doesn't exist"

/-- The unmarshal failure produced on `badExt`. -/
def extDecodeFail : GoErr := GoErr.simple "cannot unmarshal number into extensions target"

/-- A transport-level failure. -/
def dialFailure : GoErr := GoErr.simple "dial tcp: connection refused"

/-- The typed output value matching `sampleData`. -/
def samplePayload : MutationPayload := { AddArtifact := { id := "abc123" } }

/-- A concrete codec: fixed encoding, literal-match decoding. -/
def sampleCodec : Codec MutationPayload :=
  { encodePayload := fun _ => .ok sampleReqBody
    newRequest := fun u b => .ok { url := u, headers := [], body := b }
    gunzip := fun s =>
      if s = sampleGzip then .ok sampleEnvelope
      else .error (GoErr.simple "gzip: invalid header")
    gzipRemainder := fun _ => ""
    decodeEnvelope := fun s =>
      if s = sampleEnvelope then
        .ok { Data := some sampleData, Extensions := none, Errors := [] }
      else if s = envBoth then
        .ok { Data := some sampleData, Extensions := none, Errors := [notFoundError] }
      else if s = envTwoErrors then
        .ok { Data := none, Extensions := none, Errors := [notFoundError, secondError] }
      else .error (GoErr.simple "invalid character")
    unmarshalData := fun s =>
      if s = sampleData then .ok samplePayload else .error decodeFail
    unmarshalExt := fun s =>
      if s = badExt then some extDecodeFail else none }

/-- A transport returning a fixed response. -/
def constTransport (r : HttpResponse) : HttpRequest → Except GoErr HttpResponse :=
  fun _ => .ok r

/-- A transport failing with a fixed error. -/
def failTransport (g : GoErr) : HttpRequest → Except GoErr HttpResponse :=
  fun _ => .error g

/-- A fresh client against the action's GraphQL endpoint. -/
def sampleClient (t : HttpRequest → Except GoErr HttpResponse) : Client :=
  NewClient "https://api.trynova.ai/graphql" t

/-- The build result fed to `doOp` in the samples. -/
def sampleBuild : Except GoErr (String × String × Bool) :=
  .ok (sampleQuery, "", false)

def resp200 (body : String) : HttpResponse :=
  { statusCode := 200, headers := [], body := body }

def resp200gz (body : String) : HttpResponse :=
  { statusCode := 200, headers := [("Content-Encoding", "gzip")], body := body }

def resp500 : HttpResponse :=
  { statusCode := 500, headers := [], body := "internal server error" }

def resp500gz : HttpResponse :=
  { statusCode := 500, headers := [("Content-Encoding", "gzip")], body := "junk" }

/-! ### Helper lemmas -/

theorem mapGet_mapSet_ne {β : Type} (m : List (String × β)) (k k' : String) (v : β)
    (h : k ≠ k') : mapGet (mapSet m k v) k' = mapGet m k' := by
  induction m with
  | nil => simp [mapSet, mapGet, h]
  | cons hd tl ih =>
    obtain ⟨k0, v0⟩ := hd
    by_cases hk : k0 = k
    · subst hk
      simp [mapSet, mapGet, h]
    · by_cases hk' : k0 = k' <;> simp [mapSet, mapGet, hk, hk', ih, Ne.symm h]

theorem withRequest_err (e : Error) (req : HttpRequest) (b : String) :
    (e.withRequest req b).err = e.err := rfl

theorem withRequest_Message (e : Error) (req : HttpRequest) (b : String) :
    (e.withRequest req b).Message = e.Message := rfl

theorem withResponse_err (e : Error) (res : HttpResponse) (rb : Option String) :
    (e.withResponse res rb).err = e.err := rfl

theorem withResponse_Message (e : Error) (res : HttpResponse) (rb : Option String) :
    (e.withResponse res rb).Message = e.Message := rfl

theorem withRequest_code (e : Error) (req : HttpRequest) (b : String) :
    mapGet ((e.withRequest req b).Extensions.getD []) "code"
      = mapGet (e.Extensions.getD []) "code" := by
  unfold Error.withRequest
  cases hx : e.Extensions with
  | none => simp [hx, mapGet_mapSet_ne _ _ _ _ (by decide : "internal" ≠ "code")]
  | some ext => simp [hx, mapGet_mapSet_ne _ _ _ _ (by decide : "internal" ≠ "code")]

theorem withResponse_code (e : Error) (res : HttpResponse) (rb : Option String) :
    mapGet ((e.withResponse res rb).Extensions.getD []) "code"
      = mapGet (e.Extensions.getD []) "code" := by
  unfold Error.withResponse
  cases hx : e.Extensions with
  | none => simp [hx, mapGet_mapSet_ne _ _ _ _ (by decide : "internal" ≠ "code")]
  | some ext => simp [hx, mapGet_mapSet_ne _ _ _ _ (by decide : "internal" ≠ "code")]

theorem pipelineClassified_newError (cs : String) (g : GoErr)
    (h : cs ∈ classificationCodes) : pipelineClassified (newError cs g) := by
  intro g' hg'
  simp only [newError, Option.some.injEq] at hg'
  subst hg'
  exact ⟨rfl, cs, h, by simp [newError, mapGet]⟩

theorem pipelineClassified_withRequest (e : Error) (req : HttpRequest) (b : String)
    (h : pipelineClassified e) : pipelineClassified (e.withRequest req b) := by
  intro g hg
  rw [withRequest_err] at hg
  obtain ⟨hm, cs, hcs, hc⟩ := h g hg
  exact ⟨(withRequest_Message e req b).trans hm, cs, hcs,
    (withRequest_code e req b).trans hc⟩

theorem pipelineClassified_withResponse (e : Error) (res : HttpResponse) (rb : Option String)
    (h : pipelineClassified e) : pipelineClassified (e.withResponse res rb) := by
  intro g hg
  rw [withResponse_err] at hg
  obtain ⟨hm, cs, hcs, hc⟩ := h g hg
  exact ⟨(withResponse_Message e res rb).trans hm, cs, hcs,
    (withResponse_code e res rb).trans hc⟩

/-! ### Path lemmas for `Client.request` and `Client.processResponse` -/

theorem request_eq_handleResponse {α : Type} (c : Client) (cd : Codec α)
    (q : String) (vars : List (String × JValue)) (op : String)
    (body : String) (req0 : HttpRequest) (resp : HttpResponse)
    (h1 : cd.encodePayload ⟨q, vars, op⟩ = .ok body)
    (h2 : cd.newRequest c.url body = .ok req0)
    (h3 : c.httpClient (c.prepareRequest req0) = .ok resp) :
    c.request cd q vars op = c.handleResponse cd (c.prepareRequest req0) body resp := by
  unfold Client.request
  simp only [h1, h2, h3]

theorem request_transport_error {α : Type} (c : Client) (cd : Codec α)
    (q : String) (vars : List (String × JValue)) (op : String)
    (body : String) (req0 : HttpRequest) (g : GoErr)
    (h1 : cd.encodePayload ⟨q, vars, op⟩ = .ok body)
    (h2 : cd.newRequest c.url body = .ok req0)
    (h3 : c.httpClient (c.prepareRequest req0) = .error g) :
    c.request cd q vars op = ⟨none, none, none, none,
      [if c.debug then (newError ErrRequestError g).withRequest (c.prepareRequest req0) body
       else newError ErrRequestError g]⟩ := by
  unfold Client.request
  simp only [h1, h2, h3]

theorem handleResponse_envelope {α : Type} (c : Client) (cd : Codec α)
    (req : HttpRequest) (body : String) (resp : HttpResponse) (env : Envelope)
    (hgz : headerGet resp.headers "Content-Encoding" ≠ "gzip")
    (hst : resp.statusCode = 200)
    (hdec : cd.decodeEnvelope resp.body = .ok env) :
    (c.handleResponse cd req body resp).rawData = normSpan env.Data ∧
    (c.handleResponse cd req body resp).extensions = normSpan env.Extensions ∧
    (c.handleResponse cd req body resp).errs.length = env.Errors.length := by
  unfold Client.handleResponse Client.handleDecoded
  simp only [hgz, if_false, hst, ite_self, hdec]
  cases henv : env.Errors with
  | nil => simp [henv]
  | cons e0 rest =>
    by_cases hc : c.debug && e0.requestCaptureMissing <;> simp [henv, hc]

theorem processResponse_fst_ok {α : Type} (c : Client) (cd : Codec α)
    (extB : Bool) (d : String) (rawExt : Option String)
    (resp : Option HttpResponse) (rb : Option String) (errs : Errors) (a : α)
    (hd : 0 < d.length) (hu : cd.unmarshalData d = .ok a) :
    (c.processResponse cd extB (some d) rawExt resp rb errs).1 = some a := by
  unfold Client.processResponse
  simp only [hd, if_true, hu]

theorem processResponse_errs_prefix {α : Type} (c : Client) (cd : Codec α)
    (extB : Bool) (data rawExt : Option String)
    (resp : Option HttpResponse) (rb : Option String) (errs : Errors) :
    ∃ tail, (c.processResponse cd extB data rawExt resp rb errs).2 = errs ++ tail := by
  have hstep : ∃ t1, (match data with
      | some d =>
        if 0 < d.length then
          match cd.unmarshalData d with
          | .ok a => ((some a : Option α), errs)
          | .error g =>
            let we := newError ErrGraphQLDecode g
            let we :=
              if c.debug then
                match resp with
                | some r => we.withResponse r rb
                | none => we
              else we
            (none, errs ++ [we])
        else (none, errs)
      | none => ((none : Option α), errs)).2 = errs ++ t1 := by
    rcases data with _ | d
    · exact ⟨[], by simp⟩
    · by_cases hd : 0 < d.length
      · cases hu : cd.unmarshalData d with
        | ok a => exact ⟨[], by simp [hd, hu]⟩
        | error g =>
          refine ⟨[if c.debug = true then
              match resp with
              | some r => (newError ErrGraphQLDecode g).withResponse r rb
              | none => newError ErrGraphQLDecode g
            else newError ErrGraphQLDecode g], ?_⟩
          simp [hd, hu]
      · exact ⟨[], by simp [hd]⟩
  obtain ⟨t1, ht1⟩ := hstep
  unfold Client.processResponse
  dsimp only
  rw [ht1]
  rcases rawExt with _ | x
  · exact ⟨t1, rfl⟩
  · dsimp only
    by_cases hx : 0 < x.length ∧ extB = true
    · rw [if_pos hx]
      cases hxe : cd.unmarshalExt x with
      | none => exact ⟨t1, rfl⟩
      | some g =>
        exact ⟨t1 ++ [newError ErrGraphQLExtensionsDecode g], by rw [← List.append_assoc]⟩
    · rw [if_neg hx]
      exact ⟨t1, rfl⟩

/-- Shape of the decode error appended by `processResponse` when the
typed unmarshal fails (possibly debug-enriched): it wraps the
unmarshal failure, repeats its message, and is classified
`graphql_decode_error`. -/
theorem decodeErrShape (c : Client) (g : GoErr) (resp : Option HttpResponse)
    (rb : Option String) :
    (if c.debug = true then
        match resp with
        | some r => (newError ErrGraphQLDecode g).withResponse r rb
        | none => newError ErrGraphQLDecode g
      else newError ErrGraphQLDecode g).err = some g ∧
    (if c.debug = true then
        match resp with
        | some r => (newError ErrGraphQLDecode g).withResponse r rb
        | none => newError ErrGraphQLDecode g
      else newError ErrGraphQLDecode g).Message = g.message ∧
    mapGet ((if c.debug = true then
        match resp with
        | some r => (newError ErrGraphQLDecode g).withResponse r rb
        | none => newError ErrGraphQLDecode g
      else newError ErrGraphQLDecode g).Extensions.getD []) "code"
      = some (JValue.vStr ErrGraphQLDecode) := by
  by_cases hdbg : c.debug = true
  · rw [if_pos hdbg]
    cases resp with
    | some r =>
      refine ⟨withResponse_err _ _ _, withResponse_Message _ _ _, ?_⟩
      rw [withResponse_code]
      simp [newError, mapGet]
    | none => exact ⟨rfl, rfl, by simp [newError, mapGet]⟩
  · rw [if_neg hdbg]
    exact ⟨rfl, rfl, by simp [newError, mapGet]⟩

/-! ### Claim theorems -/

/-- C4: `WithRequestModifier` and `WithDebug` each construct a fresh
client value sharing the transport and URL of the base; the base client
is taken by value and never written (the Go methods build a new
composite literal and do not assign through the receiver), so deriving
debug-enabled variants leaves the base and every other derivation's
debug flag exactly what its own construction set. -/
theorem derivations_fresh_and_independent :
    ∀ (c : Client) (f : Option RequestModifier) (d1 d2 : Bool),
    (c.WithRequestModifier f).url = c.url ∧
    (c.WithRequestModifier f).httpClient = c.httpClient ∧
    (c.WithDebug d1).url = c.url ∧
    (c.WithDebug d1).httpClient = c.httpClient ∧
    (c.WithDebug d1).requestModifier = c.requestModifier ∧
    (c.WithDebug d1).debug = d1 ∧
    (c.WithDebug d2).debug = d2 ∧
    ((c.WithDebug d1).WithDebug d2).debug = d2 :=
  fun _ _ _ _ => ⟨rfl, rfl, rfl, rfl, rfl, rfl, rfl, rfl⟩

/-- C9: the client returned by `WithRequestModifier` always has
`debug = false` (the composite literal omits the field), while
`WithDebug` preserves the request modifier; so deriving a request
modifier after enabling debug silently disables debug capture. -/
theorem withRequestModifier_resets_debug :
    ∀ (c : Client) (f : Option RequestModifier) (d : Bool),
    (c.WithRequestModifier f).debug = false ∧
    (c.WithDebug d).requestModifier = c.requestModifier ∧
    ((c.WithDebug true).WithRequestModifier f).debug = false :=
  fun _ _ _ => ⟨rfl, rfl, rfl⟩

/-- C7: with an extensions target bound, a failing extensions unmarshal
appends exactly one `graphql_extensions_decode_error`-classified error
and does not prevent the data payload from being decoded and
returned. -/
theorem extensions_decode_separate :
    ∀ (α : Type) (c : Client) (cd : Codec α) (d x : String)
      (resp : Option HttpResponse) (rb : Option String) (errs : Errors)
      (a : α) (g : GoErr),
    0 < d.length → cd.unmarshalData d = .ok a →
    0 < x.length → cd.unmarshalExt x = some g →
    c.processResponse cd true (some d) (some x) resp rb errs
      = (some a, errs ++ [newError ErrGraphQLExtensionsDecode g]) := by
  intro α c cd d x resp rb errs a g hd hu hx hxe
  unfold Client.processResponse
  dsimp only
  rw [if_pos hd, hu]
  rw [if_pos (⟨hx, rfl⟩ : 0 < x.length ∧ true = true), hxe]

/-- C6: a failing typed unmarshal of a present data payload appends a
`graphql_decode_error`-classified error wrapping the failure to the
errors already accumulated, replacing none of them; all are returned
together and the typed output stays unpopulated. -/
theorem decode_error_appended :
    ∀ (α : Type) (c : Client) (cd : Codec α) (extB : Bool) (d : String)
      (rawExt : Option String) (resp : Option HttpResponse) (rb : Option String)
      (errs : Errors) (g : GoErr),
    0 < d.length → cd.unmarshalData d = .error g →
    ∃ we rest,
      (c.processResponse cd extB (some d) rawExt resp rb errs).2 = errs ++ we :: rest ∧
      we.err = some g ∧ we.Message = g.message ∧
      mapGet (we.Extensions.getD []) "code" = some (JValue.vStr ErrGraphQLDecode) ∧
      (c.processResponse cd extB (some d) rawExt resp rb errs).1 = none := by
  intro α c cd extB d rawExt resp rb errs g hd hu
  obtain ⟨he, hm, hc⟩ := decodeErrShape c g resp rb
  unfold Client.processResponse
  dsimp only
  rw [if_pos hd, hu]
  dsimp only
  rcases rawExt with _ | x
  · exact ⟨_, [], rfl, he, hm, hc, rfl⟩
  · dsimp only
    by_cases hx : 0 < x.length ∧ extB = true
    · rw [if_pos hx]
      cases hxe : cd.unmarshalExt x with
      | none => exact ⟨_, [], rfl, he, hm, hc, rfl⟩
      | some g2 =>
        exact ⟨_, [newError ErrGraphQLExtensionsDecode g2],
          by dsimp only; simp, he, hm, hc, rfl⟩
    · rw [if_neg hx]
      exact ⟨_, [], rfl, he, hm, hc, rfl⟩

/-- C2 (amended): a non-2xx response that does not declare the gzip
content-encoding terminates `Client.request` with exactly one
`request_error`-classified entry wrapping a `NetworkError` that carries
the original status code and the raw body text; no data or extensions
span is produced (the body is never decoded as an envelope — the
result does not depend on `decodeEnvelope`, which is arbitrary
here). -/
theorem non2xx_network_error :
    ∀ (α : Type) (c : Client) (cd : Codec α) (q : String)
      (vars : List (String × JValue)) (op body : String)
      (req0 : HttpRequest) (resp : HttpResponse),
    cd.encodePayload ⟨q, vars, op⟩ = .ok body →
    cd.newRequest c.url body = .ok req0 →
    c.httpClient (c.prepareRequest req0) = .ok resp →
    (resp.statusCode < 200 ∨ 299 < resp.statusCode) →
    headerGet resp.headers "Content-Encoding" ≠ "gzip" →
    ∃ e, (c.request cd q vars op).errs = [e] ∧
      e.err = some (NetworkError resp.statusCode resp.body) ∧
      mapGet (e.Extensions.getD []) "code" = some (JValue.vStr ErrRequestError) ∧
      (c.request cd q vars op).rawData = none ∧
      (c.request cd q vars op).extensions = none := by
  intro α c cd q vars op body req0 resp h1 h2 h3 hst hgz
  have hne : resp.statusCode ≠ 200 := by rcases hst with h | h <;> omega
  rw [request_eq_handleResponse c cd q vars op body req0 resp h1 h2 h3]
  unfold Client.handleResponse Client.handleDecoded
  rw [if_neg hgz]
  dsimp only
  rw [if_pos hne]
  refine ⟨_, rfl, ?_, ?_, rfl, rfl⟩
  · by_cases hdbg : c.debug = true
    · rw [if_pos hdbg, withRequest_err]
      rfl
    · rw [if_neg hdbg]
      rfl
  · by_cases hdbg : c.debug = true
    · rw [if_pos hdbg, withRequest_code]
      simp [newError, mapGet]
    · rw [if_neg hdbg]
      simp [newError, mapGet]

/-- C5 (amended): with debug capture disabled (the default), a 200
response declaring the gzip content-encoding decodes to exactly the
same data, extensions and errors as the equivalent uncompressed
response, and a response without the header is decoded as-is. -/
theorem gzip_transparent_nodebug :
    ∀ (α : Type) (c : Client) (cd : Codec α) (req : HttpRequest) (body : String)
      (r1 r2 : HttpResponse),
    c.debug = false →
    headerGet r1.headers "Content-Encoding" = "gzip" →
    headerGet r2.headers "Content-Encoding" ≠ "gzip" →
    r1.statusCode = 200 → r2.statusCode = 200 →
    cd.gunzip r1.body = .ok r2.body →
    (c.handleResponse cd req body r1).rawData = (c.handleResponse cd req body r2).rawData ∧
    (c.handleResponse cd req body r1).extensions
      = (c.handleResponse cd req body r2).extensions ∧
    (c.handleResponse cd req body r1).errs = (c.handleResponse cd req body r2).errs := by
  intro α c cd req body r1 r2 hdbg hgz1 hgz2 hst1 hst2 hgun
  unfold Client.handleResponse Client.handleDecoded
  rw [if_pos hgz1, if_neg hgz2, hgun]
  dsimp only
  rw [if_neg (not_ne_iff.mpr hst1), if_neg (not_ne_iff.mpr hst2)]
  simp only [hdbg, Bool.false_eq_true, if_false, Bool.false_and]
  cases hdec : cd.decodeEnvelope r2.body with
  | error e => exact ⟨rfl, rfl, rfl⟩
  | ok out =>
    dsimp only
    cases herr : out.Errors with
    | nil => exact ⟨rfl, rfl, rfl⟩
    | cons e0 rest => exact ⟨rfl, rfl, rfl⟩

/-- C8: dispatching and decoding a well-formed envelope that carries
only a data payload (no errors, no extensions) yields zero errors and
the typed output the unmarshaler produces from that payload. -/
theorem data_only_envelope_zero_errors :
    ∀ (α : Type) (c : Client) (cd : Codec α) (q : String)
      (vars : List (String × JValue)) (op : String) (extB : Bool)
      (body : String) (req0 : HttpRequest) (resp : HttpResponse) (env : Envelope)
      (d : String) (a : α),
    cd.encodePayload ⟨q, vars, op⟩ = .ok body →
    cd.newRequest c.url body = .ok req0 →
    c.httpClient (c.prepareRequest req0) = .ok resp →
    headerGet resp.headers "Content-Encoding" ≠ "gzip" →
    resp.statusCode = 200 →
    cd.decodeEnvelope resp.body = .ok env →
    env.Data = some d → 0 < d.length →
    env.Extensions = none → env.Errors = [] →
    cd.unmarshalData d = .ok a →
    c.doOp cd (.ok (q, op, extB)) vars = (some a, []) := by
  intro α c cd q vars op extB body req0 resp env d a h1 h2 h3 hgz hst hdec hdata hd hext herr hu
  unfold Client.doOp
  dsimp only
  rw [request_eq_handleResponse c cd q vars op body req0 resp h1 h2 h3]
  unfold Client.handleResponse Client.handleDecoded
  rw [if_neg hgz]
  dsimp only
  rw [if_neg (not_ne_iff.mpr hst), ite_self, hdec]
  dsimp only
  rw [herr, hdata, hext]
  dsimp only [normSpan]
  rw [if_pos hd]
  unfold Client.processResponse
  dsimp only
  rw [if_pos hd, hu]

/-- C1: (partial success) for an envelope carrying both a data payload
and errors, the pipeline returns the populated typed output together
with the non-empty error collection — never one without the other; and
(transport failures are never silent) a failing transport always
yields a non-empty error collection. -/
theorem data_and_errors_both_returned :
    (∀ (α : Type) (c : Client) (cd : Codec α) (q : String)
       (vars : List (String × JValue)) (op : String) (extB : Bool)
       (body : String) (req0 : HttpRequest) (resp : HttpResponse)
       (env : Envelope) (d : String) (a : α),
      cd.encodePayload ⟨q, vars, op⟩ = .ok body →
      cd.newRequest c.url body = .ok req0 →
      c.httpClient (c.prepareRequest req0) = .ok resp →
      headerGet resp.headers "Content-Encoding" ≠ "gzip" →
      resp.statusCode = 200 →
      cd.decodeEnvelope resp.body = .ok env →
      env.Data = some d → 0 < d.length → env.Errors ≠ [] →
      cd.unmarshalData d = .ok a →
      (c.doOp cd (.ok (q, op, extB)) vars).1 = some a ∧
      (c.doOp cd (.ok (q, op, extB)) vars).2 ≠ []) ∧
    (∀ (α : Type) (c : Client) (cd : Codec α) (q : String)
       (vars : List (String × JValue)) (op : String) (extB : Bool)
       (body : String) (req0 : HttpRequest) (g : GoErr),
      cd.encodePayload ⟨q, vars, op⟩ = .ok body →
      cd.newRequest c.url body = .ok req0 →
      c.httpClient (c.prepareRequest req0) = .error g →
      (c.doOp cd (.ok (q, op, extB)) vars).2 ≠ []) := by
  constructor
  · intro α c cd q vars op extB body req0 resp env d a h1 h2 h3 hgz hst hdec hdata hd herrne hu
    obtain ⟨hraw, hxt, hlen⟩ :=
      handleResponse_envelope c cd (c.prepareRequest req0) body resp env hgz hst hdec
    have hreq : c.request cd q vars op = c.handleResponse cd (c.prepareRequest req0) body resp :=
      request_eq_handleResponse c cd q vars op body req0 resp h1 h2 h3
    have hrawd : (c.request cd q vars op).rawData = some d := by
      rw [hreq, hraw, hdata]
      simp [normSpan, hd]
    have herrs_ne : (c.request cd q vars op).errs ≠ [] := by
      rw [hreq]
      intro hnil
      rw [hnil] at hlen
      exact herrne (List.eq_nil_of_length_eq_zero hlen.symm)
    have hdo : c.doOp cd (.ok (q, op, extB)) vars
        = c.processResponse cd extB (c.request cd q vars op).rawData
            (c.request cd q vars op).extensions (c.request cd q vars op).resp
            (c.request cd q vars op).respBuf (c.request cd q vars op).errs := rfl
    constructor
    · rw [hdo, hrawd]
      exact processResponse_fst_ok c cd extB d _ _ _ _ a hd hu
    · rw [hdo]
      obtain ⟨tail, htail⟩ := processResponse_errs_prefix c cd extB
        (c.request cd q vars op).rawData (c.request cd q vars op).extensions
        (c.request cd q vars op).resp (c.request cd q vars op).respBuf
        (c.request cd q vars op).errs
      rw [htail, Ne, List.append_eq_nil]
      rintro ⟨hnil, -⟩
      exact herrs_ne hnil
  · intro α c cd q vars op extB body req0 g h1 h2 h3
    have hreq := request_transport_error c cd q vars op body req0 g h1 h2 h3
    have hdo : c.doOp cd (.ok (q, op, extB)) vars
        = c.processResponse cd extB (c.request cd q vars op).rawData
            (c.request cd q vars op).extensions (c.request cd q vars op).resp
            (c.request cd q vars op).respBuf (c.request cd q vars op).errs := rfl
    rw [hdo, hreq]
    simp [Client.processResponse]

/-! ### Predicate propagation through the pipeline paths -/

theorem pipelineClassified_of_err_none (e : Error) (h : e.err = none) :
    pipelineClassified e := by
  intro g hg
  rw [h] at hg
  exact Option.noConfusion hg

theorem noInternal_newError (cs : String) (g : GoErr) : noInternal (newError cs g) := rfl

/-- Every error in the output of `handleDecoded` satisfies any predicate
that holds for classified `newError`s, is preserved by the debug
enrichments, and holds for the decoded envelope's errors. -/
theorem handleDecoded_errs_pred {α : Type} (P : Error → Prop)
    (c : Client) (cd : Codec α) (req : HttpRequest) (body : String)
    (resp : HttpResponse) (decoded rawRem : String)
    (hnew : ∀ cs g, cs ∈ classificationCodes → P (newError cs g))
    (hwreq : ∀ e r b, P e → P (e.withRequest r b))
    (hwresp : ∀ e r rb, P e → P (e.withResponse r rb))
    (hEnvP : ∀ s env, cd.decodeEnvelope s = .ok env → ∀ e ∈ env.Errors, P e) :
    ∀ e ∈ (c.handleDecoded cd req body resp decoded rawRem).errs, P e := by
  intro e he
  unfold Client.handleDecoded at he
  by_cases hst : resp.statusCode ≠ 200
  · rw [if_pos hst] at he
    dsimp only at he
    by_cases hdbg : c.debug = true
    · rw [if_pos hdbg] at he
      simp only [List.mem_singleton] at he
      subst he
      exact hwreq _ _ _ (hnew _ _ (by decide))
    · rw [if_neg hdbg] at he
      simp only [List.mem_singleton] at he
      subst he
      exact hnew _ _ (by decide)
  · rw [if_neg hst] at he
    dsimp only at he
    cases hdec : cd.decodeEnvelope (if c.debug = true then rawRem else decoded) with
    | error ge =>
      rw [hdec] at he
      dsimp only at he
      by_cases hdbg : c.debug = true
      · rw [if_pos hdbg] at he
        simp only [List.mem_singleton] at he
        subst he
        exact hwresp _ _ _ (hwreq _ _ _ (hnew _ _ (by decide)))
      · rw [if_neg hdbg] at he
        simp only [List.mem_singleton] at he
        subst he
        exact hnew _ _ (by decide)
    | ok out =>
      rw [hdec] at he
      dsimp only at he
      cases herr : out.Errors with
      | nil =>
        rw [herr] at he
        simp at he
      | cons e0 rest =>
        rw [herr] at he
        dsimp only at he
        have hP0 : P e0 := hEnvP _ out hdec e0 (by rw [herr]; exact List.mem_cons_self _ _)
        have hrest : ∀ x ∈ rest, P x := fun x hx =>
          hEnvP _ out hdec x (by rw [herr]; exact List.mem_cons_of_mem _ hx)
        by_cases hc : (c.debug && e0.requestCaptureMissing) = true
        · rw [if_pos hc] at he
          rcases List.mem_cons.mp he with rfl | hx
          · exact hwresp _ _ _ (hwreq _ _ _ hP0)
          · exact hrest _ hx
        · rw [if_neg hc] at he
          rcases List.mem_cons.mp he with rfl | hx
          · exact hP0
          · exact hrest _ hx

theorem handleResponse_errs_pred {α : Type} (P : Error → Prop)
    (c : Client) (cd : Codec α) (req : HttpRequest) (body : String)
    (resp : HttpResponse)
    (hnew : ∀ cs g, cs ∈ classificationCodes → P (newError cs g))
    (hwreq : ∀ e r b, P e → P (e.withRequest r b))
    (hwresp : ∀ e r rb, P e → P (e.withResponse r rb))
    (hEnvP : ∀ s env, cd.decodeEnvelope s = .ok env → ∀ e ∈ env.Errors, P e) :
    ∀ e ∈ (c.handleResponse cd req body resp).errs, P e := by
  intro e he
  unfold Client.handleResponse at he
  dsimp only at he
  by_cases hgz : headerGet resp.headers "Content-Encoding" = "gzip"
  · rw [if_pos hgz] at he
    cases hgun : cd.gunzip resp.body with
    | error ge =>
      rw [hgun] at he
      dsimp only at he
      simp only [List.mem_singleton] at he
      subst he
      exact hnew _ _ (by decide)
    | ok dec =>
      rw [hgun] at he
      dsimp only at he
      exact handleDecoded_errs_pred P c cd req body resp dec (cd.gzipRemainder resp.body)
        hnew hwreq hwresp hEnvP e he
  · rw [if_neg hgz] at he
    dsimp only at he
    exact handleDecoded_errs_pred P c cd req body resp resp.body resp.body
      hnew hwreq hwresp hEnvP e he

theorem request_errs_pred {α : Type} (P : Error → Prop)
    (c : Client) (cd : Codec α) (q : String) (vars : List (String × JValue)) (op : String)
    (hnew : ∀ cs g, cs ∈ classificationCodes → P (newError cs g))
    (hwreq : ∀ e r b, P e → P (e.withRequest r b))
    (hwresp : ∀ e r rb, P e → P (e.withResponse r rb))
    (hEnvP : ∀ s env, cd.decodeEnvelope s = .ok env → ∀ e ∈ env.Errors, P e) :
    ∀ e ∈ (c.request cd q vars op).errs, P e := by
  intro e he
  unfold Client.request at he
  dsimp only at he
  cases h1 : cd.encodePayload { Query := q, Variables := vars, OperationName := op } with
  | error g =>
    rw [h1] at he
    dsimp only at he
    simp only [List.mem_singleton] at he
    subst he
    exact hnew _ _ (by decide)
  | ok body =>
    rw [h1] at he
    dsimp only at he
    cases h2 : cd.newRequest c.url body with
    | error g0 =>
      rw [h2] at he
      dsimp only at he
      simp only [List.mem_singleton] at he
      subst he
      exact hnew _ _ (by decide)
    | ok req0 =>
      rw [h2] at he
      dsimp only at he
      cases h3 : c.httpClient (c.prepareRequest req0) with
      | error g0 =>
        rw [h3] at he
        dsimp only at he
        by_cases hdbg : c.debug = true
        · rw [if_pos hdbg] at he
          simp only [List.mem_singleton] at he
          subst he
          exact hwreq _ _ _ (hnew _ _ (by decide))
        · rw [if_neg hdbg] at he
          simp only [List.mem_singleton] at he
          subst he
          exact hnew _ _ (by decide)
      | ok resp =>
        rw [h3] at he
        dsimp only at he
        exact handleResponse_errs_pred P c cd _ body resp hnew hwreq hwresp hEnvP e he

theorem processResponse_errs_pred {α : Type} (P : Error → Prop)
    (c : Client) (cd : Codec α) (extB : Bool) (data rawExt : Option String)
    (resp : Option HttpResponse) (rb : Option String) (errs : Errors)
    (hnew : ∀ cs g, cs ∈ classificationCodes → P (newError cs g))
    (hwresp : ∀ e r rb0, P e → P (e.withResponse r rb0))
    (hin : ∀ x ∈ errs, P x) :
    ∀ e ∈ (c.processResponse cd extB data rawExt resp rb errs).2, P e := by
  have hstep : ∀ x ∈ (match data with
      | some d =>
        if 0 < d.length then
          match cd.unmarshalData d with
          | .ok a => ((some a : Option α), errs)
          | .error g =>
            (none, errs ++ [if c.debug = true then
                match resp with
                | some r => (newError ErrGraphQLDecode g).withResponse r rb
                | none => newError ErrGraphQLDecode g
              else newError ErrGraphQLDecode g])
        else (none, errs)
      | none => ((none : Option α), errs)).2, P x := by
    intro x hx
    rcases data with _ | d
    · exact hin x hx
    · dsimp only at hx
      by_cases hd : 0 < d.length
      · rw [if_pos hd] at hx
        cases hu : cd.unmarshalData d with
        | ok a => rw [hu] at hx; exact hin x hx
        | error g =>
          rw [hu] at hx
          dsimp only at hx
          rcases List.mem_append.mp hx with h | h
          · exact hin x h
          · simp only [List.mem_singleton] at h
            subst h
            by_cases hdbg : c.debug = true
            · rw [if_pos hdbg]
              cases resp with
              | some r => exact hwresp _ _ _ (hnew _ _ (by decide))
              | none => exact hnew _ _ (by decide)
            · rw [if_neg hdbg]
              exact hnew _ _ (by decide)
      · rw [if_neg hd] at hx
        exact hin x hx
  intro e he
  unfold Client.processResponse at he
  dsimp only at he
  rcases rawExt with _ | y
  · exact hstep e he
  · dsimp only at he
    by_cases hxy : 0 < y.length ∧ extB = true
    · rw [if_pos hxy] at he
      cases hxe : cd.unmarshalExt y with
      | none => rw [hxe] at he; exact hstep e he
      | some g =>
        rw [hxe] at he
        rcases List.mem_append.mp he with h | h
        · exact hstep e h
        · simp only [List.mem_singleton] at h
          subst h
          exact hnew _ _ (by decide)
    · rw [if_neg hxy] at he
      exact hstep e he

/-- Variant of `handleDecoded_errs_pred` for a non-debug client: no
capture enrichment ever runs, so closure under the capture operations
is not needed (this is what makes non-debug capture-freedom provable
for predicates the enrichment would destroy). -/
theorem handleDecoded_errs_pred_nodebug {α : Type} (P : Error → Prop)
    (c : Client) (cd : Codec α) (req : HttpRequest) (body : String)
    (resp : HttpResponse) (decoded rawRem : String)
    (hdbg : c.debug = false)
    (hnew : ∀ cs g, cs ∈ classificationCodes → P (newError cs g))
    (hEnvP : ∀ s env, cd.decodeEnvelope s = .ok env → ∀ e ∈ env.Errors, P e) :
    ∀ e ∈ (c.handleDecoded cd req body resp decoded rawRem).errs, P e := by
  have hnd : ¬(c.debug = true) := by rw [hdbg]; exact Bool.false_ne_true
  intro e he
  unfold Client.handleDecoded at he
  by_cases hst : resp.statusCode ≠ 200
  · rw [if_pos hst] at he
    dsimp only at he
    rw [if_neg hnd] at he
    simp only [List.mem_singleton] at he
    subst he
    exact hnew _ _ (by decide)
  · rw [if_neg hst] at he
    dsimp only at he
    cases hdec : cd.decodeEnvelope (if c.debug = true then rawRem else decoded) with
    | error ge =>
      rw [hdec] at he
      dsimp only at he
      rw [if_neg hnd] at he
      simp only [List.mem_singleton] at he
      subst he
      exact hnew _ _ (by decide)
    | ok out =>
      rw [hdec] at he
      dsimp only at he
      cases herr : out.Errors with
      | nil => rw [herr] at he; simp at he
      | cons e0 rest =>
        rw [herr] at he
        dsimp only at he
        have hcf : ¬((c.debug && e0.requestCaptureMissing) = true) := by
          rw [hdbg]; simp
        rw [if_neg hcf] at he
        rcases List.mem_cons.mp he with rfl | hx
        · exact hEnvP _ out hdec e (by rw [herr]; exact List.mem_cons_self _ _)
        · exact hEnvP _ out hdec e (by rw [herr]; exact List.mem_cons_of_mem _ hx)

theorem handleResponse_errs_pred_nodebug {α : Type} (P : Error → Prop)
    (c : Client) (cd : Codec α) (req : HttpRequest) (body : String)
    (resp : HttpResponse)
    (hdbg : c.debug = false)
    (hnew : ∀ cs g, cs ∈ classificationCodes → P (newError cs g))
    (hEnvP : ∀ s env, cd.decodeEnvelope s = .ok env → ∀ e ∈ env.Errors, P e) :
    ∀ e ∈ (c.handleResponse cd req body resp).errs, P e := by
  intro e he
  unfold Client.handleResponse at he
  dsimp only at he
  by_cases hgz : headerGet resp.headers "Content-Encoding" = "gzip"
  · rw [if_pos hgz] at he
    cases hgun : cd.gunzip resp.body with
    | error ge =>
      rw [hgun] at he
      dsimp only at he
      simp only [List.mem_singleton] at he
      subst he
      exact hnew _ _ (by decide)
    | ok dec =>
      rw [hgun] at he
      dsimp only at he
      exact handleDecoded_errs_pred_nodebug P c cd req body resp dec
        (cd.gzipRemainder resp.body) hdbg hnew hEnvP e he
  · rw [if_neg hgz] at he
    dsimp only at he
    exact handleDecoded_errs_pred_nodebug P c cd req body resp resp.body resp.body
      hdbg hnew hEnvP e he

theorem request_errs_pred_nodebug {α : Type} (P : Error → Prop)
    (c : Client) (cd : Codec α) (q : String) (vars : List (String × JValue)) (op : String)
    (hdbg : c.debug = false)
    (hnew : ∀ cs g, cs ∈ classificationCodes → P (newError cs g))
    (hEnvP : ∀ s env, cd.decodeEnvelope s = .ok env → ∀ e ∈ env.Errors, P e) :
    ∀ e ∈ (c.request cd q vars op).errs, P e := by
  have hnd : ¬(c.debug = true) := by rw [hdbg]; exact Bool.false_ne_true
  intro e he
  unfold Client.request at he
  dsimp only at he
  cases h1 : cd.encodePayload { Query := q, Variables := vars, OperationName := op } with
  | error g =>
    rw [h1] at he
    dsimp only at he
    simp only [List.mem_singleton] at he
    subst he
    exact hnew _ _ (by decide)
  | ok body =>
    rw [h1] at he
    dsimp only at he
    cases h2 : cd.newRequest c.url body with
    | error g0 =>
      rw [h2] at he
      dsimp only at he
      simp only [List.mem_singleton] at he
      subst he
      exact hnew _ _ (by decide)
    | ok req0 =>
      rw [h2] at he
      dsimp only at he
      cases h3 : c.httpClient (c.prepareRequest req0) with
      | error g0 =>
        rw [h3] at he
        dsimp only at he
        rw [if_neg hnd] at he
        simp only [List.mem_singleton] at he
        subst he
        exact hnew _ _ (by decide)
      | ok resp =>
        rw [h3] at he
        dsimp only at he
        exact handleResponse_errs_pred_nodebug P c cd _ body resp hdbg hnew hEnvP e he

theorem processResponse_errs_pred_nodebug {α : Type} (P : Error → Prop)
    (c : Client) (cd : Codec α) (extB : Bool) (data rawExt : Option String)
    (resp : Option HttpResponse) (rb : Option String) (errs : Errors)
    (hdbg : c.debug = false)
    (hnew : ∀ cs g, cs ∈ classificationCodes → P (newError cs g))
    (hin : ∀ x ∈ errs, P x) :
    ∀ e ∈ (c.processResponse cd extB data rawExt resp rb errs).2, P e := by
  have hnd : ¬(c.debug = true) := by rw [hdbg]; exact Bool.false_ne_true
  have hstep : ∀ x ∈ (match data with
      | some d =>
        if 0 < d.length then
          match cd.unmarshalData d with
          | .ok a => ((some a : Option α), errs)
          | .error g =>
            (none, errs ++ [if c.debug = true then
                match resp with
                | some r => (newError ErrGraphQLDecode g).withResponse r rb
                | none => newError ErrGraphQLDecode g
              else newError ErrGraphQLDecode g])
        else (none, errs)
      | none => ((none : Option α), errs)).2, P x := by
    intro x hx
    rcases data with _ | d
    · exact hin x hx
    · dsimp only at hx
      by_cases hd : 0 < d.length
      · rw [if_pos hd] at hx
        cases hu : cd.unmarshalData d with
        | ok a => rw [hu] at hx; exact hin x hx
        | error g =>
          rw [hu] at hx
          dsimp only at hx
          rcases List.mem_append.mp hx with h | h
          · exact hin x h
          · simp only [List.mem_singleton] at h
            subst h
            rw [if_neg hnd]
            exact hnew _ _ (by decide)
      · rw [if_neg hd] at hx
        exact hin x hx
  intro e he
  unfold Client.processResponse at he
  dsimp only at he
  rcases rawExt with _ | y
  · exact hstep e he
  · dsimp only at he
    by_cases hxy : 0 < y.length ∧ extB = true
    · rw [if_pos hxy] at he
      cases hxe : cd.unmarshalExt y with
      | none => rw [hxe] at he; exact hstep e he
      | some g =>
        rw [hxe] at he
        rcases List.mem_append.mp he with h | h
        · exact hstep e h
        · simp only [List.mem_singleton] at h
          subst h
          exact hnew _ _ (by decide)
    · rw [if_neg hxy] at he
      exact hstep e he

/-- C10: every error constructed by the pipeline itself carries a
`"code"` extension bound to one of the declared classification strings
and a message equal to the underlying Go error's message.  Errors
decoded from a response envelope are exactly those whose unexported
`err` field is nil (JSON decoding cannot set it — the hypothesis), so
the property is stated for every returned error that wraps an
underlying error. -/
theorem pipeline_errors_classified :
    ∀ (α : Type) (c : Client) (cd : Codec α)
      (build : Except GoErr (String × String × Bool)) (vars : List (String × JValue)),
    (∀ s env, cd.decodeEnvelope s = .ok env → ∀ e ∈ env.Errors, e.err = none) →
    ∀ e ∈ (c.doOp cd build vars).2, pipelineClassified e := by
  intro α c cd build vars hEnv e he
  unfold Client.doOp at he
  rcases build with g | ⟨q, op, extB⟩
  · dsimp only at he
    simp only [List.mem_singleton] at he
    subst he
    exact pipelineClassified_newError _ _ (by decide)
  · dsimp only at he
    exact processResponse_errs_pred pipelineClassified c cd extB _ _ _ _ _
      (fun cs g0 h => pipelineClassified_newError cs g0 h)
      (fun e0 r rb0 h => pipelineClassified_withResponse e0 r rb0 h)
      (request_errs_pred pipelineClassified c cd q vars op
        (fun cs g0 h => pipelineClassified_newError cs g0 h)
        (fun e0 r b h => pipelineClassified_withRequest e0 r b h)
        (fun e0 r rb0 h => pipelineClassified_withResponse e0 r rb0 h)
        (fun s env hdec x hx => pipelineClassified_of_err_none x (hEnv s env hdec x hx)))
      e he

/-- C3 (amended): with debug disabled (the default) no error returned
by the pipeline carries captured request/response bytes (no
`"internal"` extensions entry), assuming the server's envelope errors
carry none; with debug enabled and an envelope containing errors, the
raw request and response bytes are attached to the FIRST error of the
collection only (when its extensions lack a `"request"` entry) — the
remaining errors are returned unchanged. -/
theorem debug_capture_policy :
    (∀ (α : Type) (c : Client) (cd : Codec α)
       (build : Except GoErr (String × String × Bool)) (vars : List (String × JValue)),
      c.debug = false →
      (∀ s env, cd.decodeEnvelope s = .ok env → ∀ e ∈ env.Errors, noInternal e) →
      ∀ e ∈ (c.doOp cd build vars).2, noInternal e) ∧
    (∀ (α : Type) (c : Client) (cd : Codec α) (req : HttpRequest) (body : String)
       (resp : HttpResponse) (env : Envelope) (e0 : Error) (rest : Errors),
      c.debug = true →
      headerGet resp.headers "Content-Encoding" ≠ "gzip" →
      resp.statusCode = 200 →
      cd.decodeEnvelope resp.body = .ok env →
      env.Errors = e0 :: rest →
      e0.requestCaptureMissing = true →
      (c.handleResponse cd req body resp).errs =
        ((e0.withRequest req body).withResponse resp (some resp.body)) :: rest) := by
  constructor
  · intro α c cd build vars hdbg hEnvI e he
    unfold Client.doOp at he
    rcases build with g | ⟨q, op, extB⟩
    · dsimp only at he
      simp only [List.mem_singleton] at he
      subst he
      exact noInternal_newError _ _
    · dsimp only at he
      exact processResponse_errs_pred_nodebug noInternal c cd extB _ _ _ _ _ hdbg
        (fun cs g0 _ => noInternal_newError cs g0)
        (request_errs_pred_nodebug noInternal c cd q vars op hdbg
          (fun cs g0 _ => noInternal_newError cs g0)
          (fun s env hdec x hx => hEnvI s env hdec x hx))
        e he
  · intro α c cd req body resp env e0 rest hdbg hgz hst hdec henv hcap
    unfold Client.handleResponse Client.handleDecoded
    rw [if_neg hgz]
    dsimp only
    rw [if_neg (not_ne_iff.mpr hst), ite_self, hdec]
    dsimp only
    rw [henv]
    dsimp only
    rw [hdbg, hcap]
    simp only [Bool.and_self, if_true]

/-! ### Facts about the sample codec (used to instantiate hypotheses) -/

theorem sampleCodec_envelope_err_none :
    ∀ s env, sampleCodec.decodeEnvelope s = .ok env → ∀ e ∈ env.Errors, e.err = none := by
  intro s env h e he
  unfold sampleCodec at h
  dsimp only at h
  by_cases h1 : s = sampleEnvelope
  · rw [if_pos h1] at h
    injection h with h
    subst h
    simp at he
  · rw [if_neg h1] at h
    by_cases h2 : s = envBoth
    · rw [if_pos h2] at h
      injection h with h
      subst h
      simp only [List.mem_singleton] at he
      subst he
      rfl
    · rw [if_neg h2] at h
      by_cases h3 : s = envTwoErrors
      · rw [if_pos h3] at h
        injection h with h
        subst h
        rcases List.mem_cons.mp he with rfl | he2
        · rfl
        · simp only [List.mem_singleton] at he2
          subst he2
          rfl
      · rw [if_neg h3] at h
        exact Except.noConfusion h

theorem sampleCodec_envelope_noInternal :
    ∀ s env, sampleCodec.decodeEnvelope s = .ok env → ∀ e ∈ env.Errors, noInternal e := by
  intro s env h e he
  unfold sampleCodec at h
  dsimp only at h
  by_cases h1 : s = sampleEnvelope
  · rw [if_pos h1] at h
    injection h with h
    subst h
    simp at he
  · rw [if_neg h1] at h
    by_cases h2 : s = envBoth
    · rw [if_pos h2] at h
      injection h with h
      subst h
      simp only [List.mem_singleton] at he
      subst he
      rfl
    · rw [if_neg h2] at h
      by_cases h3 : s = envTwoErrors
      · rw [if_pos h3] at h
        injection h with h
        subst h
        rcases List.mem_cons.mp he with rfl | he2
        · rfl
        · simp only [List.mem_singleton] at he2
          subst he2
          rfl
      · rw [if_neg h3] at h
        exact Except.noConfusion h

/-! ### Counterexamples and witnesses -/

/-- C2 counterexample: a 500 response declaring gzip encoding whose
body the gzip reader rejects terminates the call with a single
`json_decode_error`-classified entry wrapping the gzip failure —
carrying no status code — not a network/request-error entry, refuting
the claim as stated for arbitrary non-2xx responses. -/
theorem gzip_non2xx_not_network_error :
    ((sampleClient (constTransport resp500gz)).request sampleCodec sampleQuery [] "").errs
      = [newError ErrJsonDecode (GoErr.wrapped "problem trying to create gzip reader"
          (GoErr.simple "gzip: invalid header"))] ∧
    mapGet ((newError ErrJsonDecode (GoErr.wrapped "problem trying to create gzip reader"
        (GoErr.simple "gzip: invalid header"))).Extensions.getD []) "code"
      = some (JValue.vStr ErrJsonDecode) ∧
    (GoErr.wrapped "problem trying to create gzip reader"
        (GoErr.simple "gzip: invalid header")).StatusCode = none ∧
    ErrJsonDecode ≠ ErrRequestError :=
  ⟨rfl, rfl, rfl, by decide⟩

/-- C2 witness: instantiation of `non2xx_network_error` at a plain 500
response. -/
theorem non2xx_network_error_witness :
    ∃ e, ((sampleClient (constTransport resp500)).request sampleCodec
        sampleQuery [] "").errs = [e] ∧
      e.err = some (NetworkError resp500.statusCode resp500.body) ∧
      mapGet (e.Extensions.getD []) "code" = some (JValue.vStr ErrRequestError) ∧
      ((sampleClient (constTransport resp500)).request sampleCodec
        sampleQuery [] "").rawData = none ∧
      ((sampleClient (constTransport resp500)).request sampleCodec
        sampleQuery [] "").extensions = none :=
  non2xx_network_error MutationPayload (sampleClient (constTransport resp500)) sampleCodec
    sampleQuery [] "" sampleReqBody
    { url := "https://api.trynova.ai/graphql", headers := [], body := sampleReqBody }
    resp500 rfl rfl rfl (Or.inr (by decide)) (by decide)

/-- C3 counterexample: with debug enabled and an envelope carrying two
errors, the second error is returned completely unchanged — its
extensions are still nil, so no request/response bytes were attached to
it, refuting the claim that capture is attached to each error in the
collection. -/
theorem debug_capture_skips_second_error :
    (((sampleClient (constTransport (resp200 envTwoErrors))).WithDebug true).request
        sampleCodec sampleQuery [] "").errs.length = 2 ∧
    ((((sampleClient (constTransport (resp200 envTwoErrors))).WithDebug true).request
        sampleCodec sampleQuery [] "").errs)[1]? = some secondError ∧
    secondError.Extensions = none :=
  ⟨rfl, rfl, rfl⟩

/-- C3 witness: instantiation of both parts of `debug_capture_policy`:
a non-debug run attaches nothing to the envelope's first error, and a
debug run over a two-error envelope enriches exactly the first
entry. -/
theorem debug_capture_policy_witness :
    noInternal notFoundError ∧
    (((sampleClient (constTransport (resp200 envTwoErrors))).WithDebug true).handleResponse
        sampleCodec { url := "u", headers := [], body := sampleReqBody } sampleReqBody
        (resp200 envTwoErrors)).errs =
      ((notFoundError.withRequest { url := "u", headers := [], body := sampleReqBody }
          sampleReqBody).withResponse (resp200 envTwoErrors)
          (some (resp200 envTwoErrors).body)) :: [secondError] :=
  ⟨debug_capture_policy.1 MutationPayload
      (sampleClient (constTransport (resp200 envTwoErrors))) sampleCodec
      (.ok (sampleQuery, "", false)) [] rfl sampleCodec_envelope_noInternal
      notFoundError (List.mem_cons_self _ _),
   debug_capture_policy.2 MutationPayload
      ((sampleClient (constTransport (resp200 envTwoErrors))).WithDebug true) sampleCodec
      { url := "u", headers := [], body := sampleReqBody } sampleReqBody
      (resp200 envTwoErrors)
      { Data := none, Extensions := none, Errors := [notFoundError, secondError] }
      notFoundError [secondError] rfl (by decide) rfl rfl rfl rfl⟩

/-- C5 counterexample: with debug enabled, a gzip-encoded 200 response
is NOT decoded like its uncompressed equivalent: the debug capture
reads the raw stream and the decoder is pointed at it, so the
compressed variant produces no data span while the plain variant
does — even though the compressed body decompresses exactly to the
plain body. -/
theorem gzip_debug_differs :
    ((((sampleClient (constTransport (resp200gz sampleGzip))).WithDebug true).request
        sampleCodec sampleQuery [] "").rawData) = none ∧
    ((((sampleClient (constTransport (resp200 sampleEnvelope))).WithDebug true).request
        sampleCodec sampleQuery [] "").rawData) = some sampleData ∧
    sampleCodec.gunzip (resp200gz sampleGzip).body = .ok (resp200 sampleEnvelope).body :=
  ⟨rfl, rfl, rfl⟩

/-- C5 witness: instantiation of `gzip_transparent_nodebug` at the
sample compressed/uncompressed response pair. -/
theorem gzip_transparent_nodebug_witness :
    ((sampleClient (constTransport (resp200 sampleEnvelope))).handleResponse sampleCodec
        { url := "u", headers := [], body := sampleReqBody } sampleReqBody
        (resp200gz sampleGzip)).rawData
      = ((sampleClient (constTransport (resp200 sampleEnvelope))).handleResponse sampleCodec
          { url := "u", headers := [], body := sampleReqBody } sampleReqBody
          (resp200 sampleEnvelope)).rawData ∧
    ((sampleClient (constTransport (resp200 sampleEnvelope))).handleResponse sampleCodec
        { url := "u", headers := [], body := sampleReqBody } sampleReqBody
        (resp200gz sampleGzip)).extensions
      = ((sampleClient (constTransport (resp200 sampleEnvelope))).handleResponse sampleCodec
          { url := "u", headers := [], body := sampleReqBody } sampleReqBody
          (resp200 sampleEnvelope)).extensions ∧
    ((sampleClient (constTransport (resp200 sampleEnvelope))).handleResponse sampleCodec
        { url := "u", headers := [], body := sampleReqBody } sampleReqBody
        (resp200gz sampleGzip)).errs
      = ((sampleClient (constTransport (resp200 sampleEnvelope))).handleResponse sampleCodec
          { url := "u", headers := [], body := sampleReqBody } sampleReqBody
          (resp200 sampleEnvelope)).errs :=
  gzip_transparent_nodebug MutationPayload
    (sampleClient (constTransport (resp200 sampleEnvelope))) sampleCodec
    { url := "u", headers := [], body := sampleReqBody } sampleReqBody
    (resp200gz sampleGzip) (resp200 sampleEnvelope)
    rfl rfl (by decide) rfl rfl rfl

/-- C6 witness: instantiation of `decode_error_appended` at a rejected
data span with one envelope error already collected. -/
theorem decode_error_appended_witness :
    ∃ we rest,
      ((sampleClient (constTransport (resp200 sampleEnvelope))).processResponse sampleCodec
          false (some badData) none none none [notFoundError]).2
        = [notFoundError] ++ we :: rest ∧
      we.err = some decodeFail ∧ we.Message = decodeFail.message ∧
      mapGet (we.Extensions.getD []) "code" = some (JValue.vStr ErrGraphQLDecode) ∧
      ((sampleClient (constTransport (resp200 sampleEnvelope))).processResponse sampleCodec
          false (some badData) none none none [notFoundError]).1 = none :=
  decode_error_appended MutationPayload (sampleClient (constTransport (resp200 sampleEnvelope)))
    sampleCodec false badData none none none [notFoundError] decodeFail (by decide) rfl

/-- C7 witness: instantiation of `extensions_decode_separate` at a
good data span and a rejected extensions span. -/
theorem extensions_decode_separate_witness :
    (sampleClient (constTransport (resp200 sampleEnvelope))).processResponse sampleCodec true
        (some sampleData) (some badExt) none none []
      = (some samplePayload, [] ++ [newError ErrGraphQLExtensionsDecode extDecodeFail]) :=
  extensions_decode_separate MutationPayload
    (sampleClient (constTransport (resp200 sampleEnvelope))) sampleCodec sampleData badExt
    none none [] samplePayload extDecodeFail (by decide) rfl (by decide) rfl

/-- C8 witness: instantiation of `data_only_envelope_zero_errors` at
the `addArtifact` example: the envelope
`{"data": {"addArtifact": {"id": "abc123"}}}` decodes to an output
whose id is `"abc123"` with zero errors. -/
theorem data_only_envelope_zero_errors_witness :
    (sampleClient (constTransport (resp200 sampleEnvelope))).doOp sampleCodec
        (.ok (sampleQuery, "", false)) [] = (some samplePayload, []) ∧
    samplePayload.AddArtifact.id = "abc123" :=
  ⟨data_only_envelope_zero_errors MutationPayload
      (sampleClient (constTransport (resp200 sampleEnvelope))) sampleCodec sampleQuery [] ""
      false sampleReqBody
      { url := "https://api.trynova.ai/graphql", headers := [], body := sampleReqBody }
      (resp200 sampleEnvelope)
      { Data := some sampleData, Extensions := none, Errors := [] }
      sampleData samplePayload rfl rfl rfl (by decide) rfl rfl rfl (by decide) rfl rfl rfl,
    rfl⟩

/-- C1 witness: instantiation of both parts of
`data_and_errors_both_returned`: an envelope with both data and one error
yields the populated output and a non-empty error collection, and a
failing transport yields a non-empty error collection. -/
theorem data_and_errors_both_returned_witness :
    (((sampleClient (constTransport (resp200 envBoth))).doOp sampleCodec
        (.ok (sampleQuery, "", false)) []).1 = some samplePayload ∧
     ((sampleClient (constTransport (resp200 envBoth))).doOp sampleCodec
        (.ok (sampleQuery, "", false)) []).2 ≠ []) ∧
    ((sampleClient (failTransport dialFailure)).doOp sampleCodec
        (.ok (sampleQuery, "", false)) []).2 ≠ [] :=
  ⟨data_and_errors_both_returned.1 MutationPayload
      (sampleClient (constTransport (resp200 envBoth))) sampleCodec sampleQuery [] "" false
      sampleReqBody
      { url := "https://api.trynova.ai/graphql", headers := [], body := sampleReqBody }
      (resp200 envBoth)
      { Data := some sampleData, Extensions := none, Errors := [notFoundError] }
      sampleData samplePayload
      rfl rfl rfl (by decide) rfl rfl rfl (by decide) (by simp) rfl,
   data_and_errors_both_returned.2 MutationPayload (sampleClient (failTransport dialFailure))
      sampleCodec sampleQuery [] "" false sampleReqBody
      { url := "https://api.trynova.ai/graphql", headers := [], body := sampleReqBody }
      dialFailure rfl rfl rfl⟩

/-- C10 witness: instantiation of `pipeline_errors_classified` at a
failing transport: the single resulting error repeats the transport
error's message and is classified `request_error`. -/
theorem pipeline_errors_classified_witness :
    pipelineClassified (newError ErrRequestError dialFailure) :=
  pipeline_errors_classified MutationPayload (sampleClient (failTransport dialFailure))
    sampleCodec (.ok (sampleQuery, "", false)) [] sampleCodec_envelope_err_none
    (newError ErrRequestError dialFailure) (List.mem_cons_self _ _)

end GraphqlClient

